import Mathlib

/-!
Verification of the interactive process-chat session manager of the
obsidian-open-interpreter plugin (`src/main.ts`, class `InterpreterChatModal`).

Strings are modelled as `List Char`.  The embedding follows the TypeScript
source line by line:

* `appendOutput(text, isError)` slices `text` with the regex `/.{1,1000}/g`
  (in a JavaScript regex without the `s` flag, `.` matches every character
  except the four line terminators, and unmatched characters are skipped), so
  the produced records are the maximal line-terminator-free runs of `text`,
  each cut greedily into pieces of at most 1000 characters.  Afterwards the
  input mode is recomputed from `text.trim().endsWith(sentinel)`.
* `sendMessage(overrideMessage?)` resolves the message by JavaScript
  truthiness (an empty override string falls back to the textarea), writes
  `message + "\n"` to the child's stdin when the stdin handle exists, echoes
  `"You: " + message` through `appendOutput`, and finally shows the free-text
  input area (mode `FreeText`).
* stderr data is delivered as `appendOutput("Error: " + data, true)`.
* the process `close` event appends an exit record and closes the modal;
  `onClose` calls `interpreter.kill()` unconditionally.
-/

namespace ObsidianOI

/-- The four JavaScript line terminators, which `.` in a regex does not match. -/
def isLineTerm (c : Char) : Bool :=
  c == '\n' || c == '\r' || c == '\u2028' || c == '\u2029'

/-- The characters removed by JavaScript `String.prototype.trim`
(WhiteSpace and LineTerminator code points). -/
def isJsWs (c : Char) : Bool :=
  c == ' ' || c == '\t' || c == '\n' || c == '\r' || c == '\x0b' || c == '\x0c' ||
  c == '\u00a0' || c == '\u1680' || (0x2000 ≤ c.toNat && c.toNat ≤ 0x200a) ||
  c == '\u2028' || c == '\u2029' || c == '\u202f' || c == '\u205f' ||
  c == '\u3000' || c == '\ufeff'

/-- Leading half of JavaScript `trim`. -/
def trimLeading (l : List Char) : List Char := l.dropWhile isJsWs

/-- Trailing half of JavaScript `trim`. -/
def trimTrailing (l : List Char) : List Char := (l.reverse.dropWhile isJsWs).reverse

/-- JavaScript `String.prototype.trim`: drop whitespace at both ends. -/
def jsTrim (l : List Char) : List Char := trimTrailing (trimLeading l)

/-- The confirmation-prompt sentinel tested in `appendOutput`. -/
def sentinel : List Char := "Would you like to run this code? (y/n)".data

/-- The all-lowercase variant of the sentinel (used to check case sensitivity). -/
def lowercaseSentinel : List Char := "would you like to run this code? (y/n)".data

/-- The two input modes of the chat modal: the textarea + Send button
(`FreeText`, `showInputArea`) or the Yes/No buttons (`Confirmation`,
`showYesNoButtons`). -/
inductive Mode where
  | FreeText : Mode
  | Confirmation : Mode
deriving DecidableEq, Repr

/-- The prompt-mode classification performed at the end of `appendOutput`:
`text.trim().endsWith("Would you like to run this code? (y/n)")`. -/
def classify (text : List Char) : Mode :=
  if sentinel.isSuffixOf (jsTrim text) then Mode.Confirmation else Mode.FreeText

/-- Greedy slicing of one line-terminator-free run into pieces of at most
1000 characters, as one regex match of `.{1,1000}` per piece.  The fuel is
always instantiated with the length of the list, which suffices because every
step consumes at least one character. -/
def chunksGo : Nat → List Char → List (List Char)
  | _, [] => []
  | 0, _ :: _ => []
  | n + 1, a :: l => ((a :: l).take 1000) :: chunksGo n ((a :: l).drop 1000)

/-- Slice a run into greedy pieces of at most 1000 characters. -/
def chunks1000 (l : List Char) : List (List Char) := chunksGo l.length l

/-- The maximal runs of non-line-terminator characters of `text`, in order
(the positions where `/.{1,1000}/g` can start matches).  Line terminators are
skipped by the regex scan and appear in no run. -/
def runsGo : Nat → List Char → List (List Char)
  | _, [] => []
  | 0, _ :: _ => []
  | n + 1, a :: l =>
    if isLineTerm a then runsGo n l
    else (a :: l.takeWhile (fun x => !isLineTerm x)) ::
      runsGo n (l.dropWhile (fun x => !isLineTerm x))

/-- The maximal line-terminator-free runs of `text`. -/
def runs (l : List Char) : List (List Char) := runsGo l.length l

/-- `text.match(/.{1,1000}/g) || []`: the texts of the transcript records that
`appendOutput` produces for `text`, in order. -/
def sliceTexts (text : List Char) : List (List Char) :=
  ((runs text).map chunks1000).flatten

/-- One transcript record: a `<p>` element of the output container, with the
red error colouring recorded as `isError`. -/
structure OutRec where
  text : List Char
  isError : Bool
deriving DecidableEq, Repr

/-- Which output stream of the child process delivered a chunk. -/
inductive ProcStream where
  | stdout : ProcStream
  | stderr : ProcStream
deriving DecidableEq, Repr

/-- The observable state of one `InterpreterChatModal` session.

`transcript` is the ordered list of output records; `stdinWrites` records, in
order, each string written to the child's stdin; `mode` is the currently
shown input affordance; `closed` records that the modal has been closed;
`killCount` counts how many times `interpreter.kill()` has been invoked;
`stdinPresent` models whether `interpreter.stdin` is non-null; `inputValue`
is the current content of the textarea. -/
structure Session where
  transcript : List OutRec
  stdinWrites : List (List Char)
  mode : Mode
  closed : Bool
  killCount : Nat
  stdinPresent : Bool
  inputValue : List Char
deriving DecidableEq, Repr

/-- The `"Error: "` text prepended to stderr data by the stderr listener. -/
def errTag : List Char := "Error: ".data

/-- The `"You: "` text prepended to the submission echo in `sendMessage`. -/
def youTag : List Char := "You: ".data

/-- `appendOutput(text, isError)`: append one record per regex slice, then
recompute the input mode from the full (unsliced) `text`. -/
def appendOutput (text : List Char) (isErr : Bool) (s : Session) : Session :=
  { s with
    transcript := s.transcript ++ (sliceTexts text).map fun t => { text := t, isError := isErr }
    mode := classify text }

/-- The message-resolution step of `sendMessage`: `if (overrideMessage)` is a
JavaScript truthiness test, so the empty override string falls back to the
textarea content, which is then cleared. -/
def resolveMsg : Option (List Char) → Session → List Char × Session
  | some m, s => if m.isEmpty then (s.inputValue, { s with inputValue := [] }) else (m, s)
  | none, s => (s.inputValue, { s with inputValue := [] })

/-- `sendMessage(overrideMessage?)`: resolve the message, write
`message + "\n"` to stdin when the handle exists, echo `"You: " + message`
through `appendOutput`, then show the free-text input area. -/
def sendMessage (o : Option (List Char)) (s : Session) : Session :=
  let r := resolveMsg o s
  let s₂ :=
    if r.2.stdinPresent then
      { r.2 with stdinWrites := r.2.stdinWrites ++ [r.1 ++ ['\n']] }
    else r.2
  let s₃ := appendOutput (youTag ++ r.1) false s₂
  { s₃ with mode := Mode.FreeText }

/-- A data event on one of the two output streams: the stdout listener passes
the chunk through unchanged, the stderr listener prepends `"Error: "` and
flags the records as errors. -/
def onOutput (chunk : List Char) (st : ProcStream) (s : Session) : Session :=
  match st with
  | ProcStream.stdout => appendOutput chunk false s
  | ProcStream.stderr => appendOutput (errTag ++ chunk) true s

/-- The text `appendOutput` actually receives for a chunk on a given stream. -/
def deliveredText : ProcStream → List Char → List Char
  | ProcStream.stdout, c => c
  | ProcStream.stderr, c => errTag ++ c

/-- Closing the modal (`onClose`): `interpreter.kill()` is invoked
unconditionally and the modal is gone. -/
def closeSession (s : Session) : Session :=
  { s with closed := true, killCount := s.killCount + 1 }

/-- The transcript record appended by the process `close` listener. -/
def exitText (code : Int) : List Char :=
  "Interpreter closed with code ".data ++ (toString code).data

/-- The process `close` event: append the exit record, then close the modal. -/
def onProcessExit (code : Int) (s : Session) : Session :=
  closeSession (appendOutput (exitText code) false s)

/-- The initial command write performed right after spawning
(`child.stdin.write(command + "\n")`). -/
def startSession (cmd : List Char) (s : Session) : Session :=
  if s.stdinPresent then { s with stdinWrites := s.stdinWrites ++ [cmd ++ ['\n']] } else s

/-- A freshly opened session: empty transcript, free-text mode, live process
with a stdin handle, empty textarea. -/
def freshSession : Session :=
  { transcript := []
    stdinWrites := []
    mode := Mode.FreeText
    closed := false
    killCount := 0
    stdinPresent := true
    inputValue := [] }

/-- A session that has already been closed (as after a process exit). -/
def closedSession : Session := { freshSession with closed := true, killCount := 1 }

/-! ## Helper lemmas -/

theorem runsGo_nil (n : Nat) : runsGo n [] = [] := by
  cases n <;> rfl

theorem sentinel_head_eq {b : Char} {l t : List Char}
    (h : sentinel = (b :: l) ++ t) : b = 'W' := by
  have hs : sentinel.head? = some b := by rw [h]; rfl
  have hw : sentinel.head? = some 'W' := by decide
  exact (Option.some_inj.mp (hw.symm.trans hs)).symm

/-- Split a suffix of an append: either the suffix sits inside the right part,
or it begins with a nonempty suffix of the left part. -/
theorem suffix_split {α : Type} {p x t : List α} (h : p <:+ x ++ t) :
    p <:+ t ∨ ∃ b l, (b :: l) <:+ x ∧ p = (b :: l) ++ t := by
  obtain ⟨s, hs⟩ := h
  rcases List.append_eq_append_iff.mp hs with ⟨a', ha1, ha2⟩ | ⟨c', _, hc2⟩
  · cases a' with
    | nil => exact Or.inl ⟨[], by simpa using ha2⟩
    | cons b l => exact Or.inr ⟨b, l, ⟨s, ha1.symm⟩, ha2⟩
  · exact Or.inl ⟨c', hc2.symm⟩

/-- The sentinel starts with `'W'`, which is not whitespace, so the sentinel
cannot reach across a run of whitespace prepended to a list. -/
theorem suffix_ws_run_iff {w t : List Char} (hw : ∀ a ∈ w, isJsWs a = true) :
    sentinel <:+ w ++ t ↔ sentinel <:+ t := by
  constructor
  · intro h
    rcases suffix_split h with h' | ⟨b, l, hbl, heq⟩
    · exact h'
    · exfalso
      have hb : b = 'W' := sentinel_head_eq heq
      have hmem : b ∈ w := hbl.subset (List.mem_cons_self b l)
      have hws := hw b hmem
      rw [hb] at hws
      exact absurd hws (by decide)
  · intro h
    obtain ⟨s, hs⟩ := h
    exact ⟨w ++ s, by rw [List.append_assoc, hs]⟩

theorem trimTrailing_all_ws {l : List Char} (h : ∀ a ∈ l, isJsWs a = true) :
    trimTrailing l = [] := by
  unfold trimTrailing
  have hd : l.reverse.dropWhile isJsWs = [] :=
    List.dropWhile_eq_nil_iff.mpr fun x hx => h x (List.mem_reverse.mp hx)
  rw [hd]
  rfl

theorem trimTrailing_append_of_ne {w r : List Char}
    (hr : r.reverse.dropWhile isJsWs ≠ []) :
    trimTrailing (w ++ r) = w ++ trimTrailing r := by
  unfold trimTrailing
  rw [List.reverse_append, List.dropWhile_append, if_neg (by simpa using hr),
    List.reverse_append, List.reverse_reverse]

theorem dropWhile_all_ws {l : List Char}
    (h : ∀ a ∈ l.dropWhile isJsWs, isJsWs a = true) :
    l.dropWhile isJsWs = [] := by
  induction l with
  | nil => rfl
  | cons a l ih =>
    by_cases ha : isJsWs a
    · rw [List.dropWhile_cons, if_pos ha]
      apply ih
      intro x hx
      apply h
      rw [List.dropWhile_cons, if_pos ha]
      exact hx
    · exfalso
      apply ha
      apply h
      rw [List.dropWhile_cons, if_neg ha]
      exact List.mem_cons_self a l

/-- Dropping leading whitespace before dropping trailing whitespace does not
change whether the result ends with the sentinel, because the sentinel starts
with the non-whitespace character `'W'`. -/
theorem jsTrim_suffix_iff (c : List Char) :
    sentinel <:+ jsTrim c ↔ sentinel <:+ trimTrailing c := by
  have hsplit : c.takeWhile isJsWs ++ c.dropWhile isJsWs = c :=
    List.takeWhile_append_dropWhile isJsWs c
  have hw : ∀ a ∈ c.takeWhile isJsWs, isJsWs a = true :=
    fun a ha => List.mem_takeWhile_imp ha
  by_cases hr : (c.dropWhile isJsWs).reverse.dropWhile isJsWs = []
  · have hrws : ∀ a ∈ c.dropWhile isJsWs, isJsWs a = true := fun a ha =>
      (List.dropWhile_eq_nil_iff.mp hr) a (List.mem_reverse.mpr ha)
    have hrnil : c.dropWhile isJsWs = [] := dropWhile_all_ws hrws
    have hcw : ∀ a ∈ c, isJsWs a = true := by
      intro a ha
      rw [← hsplit] at ha
      rcases List.mem_append.mp ha with h1 | h2
      · exact hw a h1
      · rw [hrnil] at h2; cases h2
    have h1 : jsTrim c = [] := by
      show trimTrailing (c.dropWhile isJsWs) = []
      rw [hrnil]
      rfl
    have h2 : trimTrailing c = [] := trimTrailing_all_ws hcw
    rw [h1, h2]
  · have hjt : jsTrim c = trimTrailing (c.dropWhile isJsWs) := rfl
    have ht : trimTrailing c
        = c.takeWhile isJsWs ++ trimTrailing (c.dropWhile isJsWs) := by
      conv_lhs => rw [← hsplit]
      exact trimTrailing_append_of_ne hr
    rw [hjt, ht]
    exact (suffix_ws_run_iff hw).symm

theorem classify_eq_confirmation_iff (t : List Char) :
    classify t = Mode.Confirmation ↔ sentinel <:+ jsTrim t := by
  by_cases hb : sentinel.isSuffixOf (jsTrim t)
  · simp [classify, hb, List.isSuffixOf_iff_suffix.mp hb]
  · have hns : ¬ sentinel <:+ jsTrim t :=
      fun hc => hb (List.isSuffixOf_iff_suffix.mpr hc)
    simp [classify, hb, hns]

/-- Trimming trailing whitespace yields a front segment of the list. -/
theorem trimTrailing_front (l : List Char) : ∃ k, trimTrailing l ++ k = l := by
  refine ⟨(l.reverse.takeWhile isJsWs).reverse, ?_⟩
  unfold trimTrailing
  rw [← List.reverse_append, List.takeWhile_append_dropWhile, List.reverse_reverse]

/-- The sentinel starts with `'W'`, which does not occur in `"Error: "`, so if
the sentinel occurs inside `"Error: " ++ c` it occurs inside `c`. -/
theorem sentinel_stderr_carryover {c : List Char} (h : sentinel <:+: errTag ++ c) :
    sentinel <:+: c := by
  obtain ⟨s, t, hst⟩ := h
  rw [List.append_assoc] at hst
  rcases List.append_eq_append_iff.mp hst with ⟨a', ha1, ha2⟩ | ⟨c', _, hc2⟩
  · cases a' with
    | nil => exact ⟨[], t, by simpa using ha2⟩
    | cons b l =>
      exfalso
      have hb : b = 'W' := by
        have h1 : (sentinel ++ t).head? = some 'W' := by
          have hw : sentinel.head? = some 'W' := by decide
          rw [List.head?_append, hw]
          rfl
        rw [ha2] at h1
        simpa using h1
      have hmem : b ∈ errTag := by
        rw [ha1]
        exact List.mem_append.mpr (Or.inr (List.mem_cons_self b l))
      rw [hb] at hmem
      exact absurd hmem (by decide)
  · exact ⟨c', t, by rw [List.append_assoc, ← hc2]⟩

/-- If the sentinel does not occur in a stderr chunk, the `"Error: "`-prefixed
text does not classify as a confirmation prompt. -/
theorem classify_stderr {c : List Char} (h : ¬ sentinel <:+: c) :
    classify (errTag ++ c) = Mode.FreeText := by
  have hns : ¬ sentinel <:+ jsTrim (errTag ++ c) := by
    intro hsuf
    apply h
    apply sentinel_stderr_carryover (c := c)
    have hjt : jsTrim (errTag ++ c) = trimTrailing (errTag ++ c) := rfl
    rw [hjt] at hsuf
    obtain ⟨k, hk⟩ := trimTrailing_front (errTag ++ c)
    obtain ⟨s, hs⟩ := hsuf
    exact ⟨s, k, by rw [hs, hk]⟩
  have hb : sentinel.isSuffixOf (jsTrim (errTag ++ c)) = false := by
    by_contra hcon
    exact hns (List.isSuffixOf_iff_suffix.mp (by simpa using hcon))
  simp [classify, hb]

theorem chunksGo_flatten :
    ∀ (n : Nat) (l : List Char), l.length ≤ n → (chunksGo n l).flatten = l := by
  intro n
  induction n with
  | zero =>
    intro l h
    cases l with
    | nil => rfl
    | cons a l => simp at h
  | succ n ih =>
    intro l h
    cases l with
    | nil => rfl
    | cons a l =>
      show (((a :: l).take 1000) :: chunksGo n ((a :: l).drop 1000)).flatten = a :: l
      rw [List.flatten_cons, ih ((a :: l).drop 1000) (by simp at h ⊢; omega)]
      exact List.take_append_drop 1000 (a :: l)

theorem chunksGo_length :
    ∀ (n : Nat) (l : List Char), l.length ≤ n →
      (chunksGo n l).length = (l.length + 999) / 1000 := by
  intro n
  induction n with
  | zero =>
    intro l h
    cases l with
    | nil => rfl
    | cons a l => simp at h
  | succ n ih =>
    intro l h
    cases l with
    | nil => rfl
    | cons a l =>
      show (((a :: l).take 1000) :: chunksGo n ((a :: l).drop 1000)).length
        = ((a :: l).length + 999) / 1000
      rw [List.length_cons, ih ((a :: l).drop 1000) (by simp at h ⊢; omega)]
      simp only [List.length_drop, List.length_cons]
      omega

theorem chunksGo_sizes :
    ∀ (n : Nat) (l : List Char), ∀ r ∈ chunksGo n l, r.length ≤ 1000 := by
  intro n
  induction n with
  | zero =>
    intro l r h
    cases l with
    | nil => cases h
    | cons a l => cases h
  | succ n ih =>
    intro l r h
    cases l with
    | nil => cases h
    | cons a l =>
      rcases List.mem_cons.mp h with rfl | h'
      · exact List.length_take_le 1000 (a :: l)
      · exact ih _ r h'

/-- A nonempty chunk without line terminators is a single run. -/
theorem runs_no_lineterm {l : List Char}
    (h : ∀ a ∈ l, isLineTerm a = false) (hne : l ≠ []) : runs l = [l] := by
  cases l with
  | nil => exact absurd rfl hne
  | cons a l =>
    show runsGo (l.length + 1) (a :: l) = [a :: l]
    have ha : isLineTerm a = false := h a (List.mem_cons_self a l)
    have htw : l.takeWhile (fun x => !isLineTerm x) = l :=
      List.takeWhile_eq_self_iff.mpr fun x hx => by
        simp [h x (List.mem_cons.mpr (Or.inr hx))]
    have hdw : l.dropWhile (fun x => !isLineTerm x) = [] :=
      List.dropWhile_eq_nil_iff.mpr fun x hx => by
        simp [h x (List.mem_cons.mpr (Or.inr hx))]
    show (if isLineTerm a then runsGo l.length l
      else (a :: l.takeWhile (fun x => !isLineTerm x)) ::
        runsGo l.length (l.dropWhile (fun x => !isLineTerm x))) = [a :: l]
    rw [if_neg (by simp [ha]), htw, hdw, runsGo_nil]

/-- On a chunk without line terminators, the regex slicing is exactly the
greedy 1000-character slicing of the whole chunk. -/
theorem sliceTexts_no_lineterm {l : List Char}
    (h : ∀ a ∈ l, isLineTerm a = false) : sliceTexts l = chunks1000 l := by
  by_cases hne : l = []
  · subst hne; rfl
  · unfold sliceTexts
    rw [runs_no_lineterm h hne]
    simp

/-! ## Claims -/

/-- C1: the prompt-mode classification returns `Confirmation` exactly for the
chunks whose text, with trailing whitespace trimmed, ends with the exact
case-sensitive sentinel `"Would you like to run this code? (y/n)"`; every
other chunk — in particular the all-lowercase variant of the sentinel —
classifies as `FreeText`. -/
theorem c1_classify :
    (∀ c : List Char, classify c = Mode.Confirmation ↔ sentinel <:+ trimTrailing c) ∧
    classify lowercaseSentinel = Mode.FreeText := by
  constructor
  · intro c
    rw [classify_eq_confirmation_iff]
    exact jsTrim_suffix_iff c
  · decide

/-- C2 (amended): after an output event the input mode is `Confirmation` if
and only if the full text delivered to `appendOutput` for that event — for
stderr the `"Error: "`-prefixed chunk, regardless of the error flag — trimmed,
ends with the sentinel. -/
theorem c2_mode_after_output (s : Session) (c : List Char) (st : ProcStream) :
    (onOutput c st s).mode = Mode.Confirmation ↔ sentinel <:+ jsTrim (deliveredText st c) := by
  cases st
  · exact classify_eq_confirmation_iff c
  · exact classify_eq_confirmation_iff (errTag ++ c)

/-- C2 counterexample: a stderr chunk ending with the sentinel puts the
session in `Confirmation` mode even though every record appended so far is an
error record — the code never consults the error flag when recomputing the
mode, contradicting the claim that an error record ending with the sentinel
must not put the session in `Confirmation` mode. -/
theorem c2_counterexample :
    (onOutput sentinel ProcStream.stderr freshSession).mode = Mode.Confirmation ∧
    ∀ r ∈ (onOutput sentinel ProcStream.stderr freshSession).transcript, r.isError = true := by
  decide

/-- C3 (amended): for an output chunk containing no line-terminator
characters, `appendOutput` produces exactly `ceil(N / 1000)` transcript
records, each at most 1000 characters, whose concatenation is the original
chunk.  (In general the regex `/.{1,1000}/g` silently drops line
terminators, so the claim fails on chunks containing them.) -/
theorem c3_chunking (s : Session) (text : List Char) (isErr : Bool)
    (h : ∀ a ∈ text, isLineTerm a = false) :
    (appendOutput text isErr s).transcript
      = s.transcript ++ (sliceTexts text).map (fun t => { text := t, isError := isErr }) ∧
    (sliceTexts text).length = (text.length + 999) / 1000 ∧
    (sliceTexts text).flatten = text ∧
    ∀ r ∈ sliceTexts text, r.length ≤ 1000 := by
  refine ⟨rfl, ?_, ?_, ?_⟩ <;> rw [sliceTexts_no_lineterm h]
  · exact chunksGo_length _ _ le_rfl
  · exact chunksGo_flatten _ _ le_rfl
  · exact fun r hr => chunksGo_sizes _ _ r hr

/-- C3 witness: the concrete chunk `"hello"`. -/
theorem c3_witness :
    (appendOutput "hello".data false freshSession).transcript
      = freshSession.transcript
        ++ (sliceTexts "hello".data).map (fun t => { text := t, isError := false }) ∧
    (sliceTexts "hello".data).length = ("hello".data.length + 999) / 1000 ∧
    (sliceTexts "hello".data).flatten = "hello".data ∧
    ∀ r ∈ sliceTexts "hello".data, r.length ≤ 1000 :=
  c3_chunking freshSession "hello".data false (by decide)

/-- C3 counterexample: the three-character chunk `"a\nb"` produces two
records (`"a"` and `"b"`), not `ceil(3 / 1000) = 1`, and their concatenation
`"ab"` is not the original chunk — the regex slicing drops the newline. -/
theorem c3_counterexample :
    (sliceTexts "a\nb".data).length ≠ ("a\nb".data.length + 999) / 1000 ∧
    (sliceTexts "a\nb".data).flatten ≠ "a\nb".data := by
  decide

/-- C4 (amended): an accepted submission performs exactly one write of the
resolved payload plus a trailing newline to the process's stdin (when the
stdin handle exists), appends the `"You: "`-prefixed echo through the
standard chunking (one record exactly when the prefixed echo is at most 1000
characters and free of line terminators), and leaves the mode `FreeText`. -/
theorem c4_submission (s : Session) (o : Option (List Char))
    (h : s.stdinPresent = true) :
    (sendMessage o s).stdinWrites
      = s.stdinWrites ++ [(resolveMsg o s).1 ++ ['\n']] ∧
    (sendMessage o s).transcript
      = s.transcript
        ++ (sliceTexts (youTag ++ (resolveMsg o s).1)).map
          (fun t => { text := t, isError := false }) ∧
    (sendMessage o s).mode = Mode.FreeText := by
  cases o with
  | none => exact ⟨by simp [sendMessage, resolveMsg, appendOutput, h],
      by simp [sendMessage, resolveMsg, appendOutput, h], rfl⟩
  | some m =>
    by_cases hm : m.isEmpty <;>
      exact ⟨by simp [sendMessage, resolveMsg, appendOutput, h, hm],
        by simp [sendMessage, resolveMsg, appendOutput, h, hm], rfl⟩

/-- C4 witness: submitting the confirmation `"y"` on a fresh session. -/
theorem c4_witness :
    (sendMessage (some ['y']) freshSession).stdinWrites
      = freshSession.stdinWrites ++ [(resolveMsg (some ['y']) freshSession).1 ++ ['\n']] ∧
    (sendMessage (some ['y']) freshSession).transcript
      = freshSession.transcript
        ++ (sliceTexts (youTag ++ (resolveMsg (some ['y']) freshSession).1)).map
          (fun t => { text := t, isError := false }) ∧
    (sendMessage (some ['y']) freshSession).mode = Mode.FreeText :=
  c4_submission freshSession (some ['y']) rfl

/-- C4 counterexample: submitting the message `"a\nb"` appends two echo
records (`"You: a"` and `"b"`), not exactly one synthetic record as the
claim states. -/
theorem c4_counterexample :
    (sendMessage (some "a\nb".data) freshSession).transcript.length = 2 := by
  decide

/-- C5 (amended): `sendMessage` performs no closed-state check: even on a
session that is already closed, a submission still performs its single write
of the payload plus a newline to the stdin stream object and raises no error
(the code has no `InvalidStateError`); closure only manifests in the modal UI
being dismissed. -/
theorem c5_write_after_close (s : Session) (m : List Char)
    (hclosed : s.closed = true) (hstdin : s.stdinPresent = true) (hm : m ≠ []) :
    (sendMessage (some m) s).stdinWrites = s.stdinWrites ++ [m ++ ['\n']] ∧
    (sendMessage (some m) s).closed = true := by
  have hm' : m.isEmpty = false := by
    cases m with
    | nil => exact absurd rfl hm
    | cons a l => rfl
  exact ⟨by simp [sendMessage, resolveMsg, appendOutput, hm', hstdin],
    by simp [sendMessage, resolveMsg, appendOutput, hm', hstdin, hclosed]⟩

/-- C5 witness: submitting `"y"` on an already-closed session. -/
theorem c5_witness :
    (sendMessage (some ['y']) closedSession).stdinWrites
      = closedSession.stdinWrites ++ [['y'] ++ ['\n']] ∧
    (sendMessage (some ['y']) closedSession).closed = true :=
  c5_write_after_close closedSession ['y'] rfl rfl (by decide)

/-- C5 counterexample: after `onProcessExit` has fired on a fresh session,
submitting the confirmation `"y"` still performs a write of `"y\n"` to the
process input stream, contradicting the claim that every submission after
exit fails with `InvalidStateError` and performs no write. -/
theorem c5_counterexample :
    (sendMessage (some ['y']) (onProcessExit 0 freshSession)).stdinWrites
      = [['y', '\n']] := by
  decide

/-- C6: closing is idempotent on the observable end state — after one or two
calls the session is closed and the process has been signalled to terminate,
the second call changes no other component of the state, and no error is
raised (the close path is a total function). -/
theorem c6_close_idempotent (s : Session) :
    (closeSession s).closed = true ∧
    (closeSession (closeSession s)).closed = true ∧
    0 < (closeSession s).killCount ∧
    0 < (closeSession (closeSession s)).killCount ∧
    (closeSession (closeSession s)).transcript = (closeSession s).transcript ∧
    (closeSession (closeSession s)).stdinWrites = (closeSession s).stdinWrites ∧
    (closeSession (closeSession s)).mode = (closeSession s).mode ∧
    (closeSession (closeSession s)).inputValue = (closeSession s).inputValue := by
  refine ⟨rfl, rfl, ?_, ?_, rfl, rfl, rfl, rfl⟩ <;> simp [closeSession]

/-- The stdout chunk of the round-trip scenario, ending with the sentinel. -/
def demoChunk : List Char :=
  "print(1)\n\nWould you like to run this code? (y/n)".data

/-- The session after the start write of the round-trip scenario. -/
def demoS0 : Session := startSession "list files".data freshSession

/-- The scenario session after the sentinel-bearing stdout chunk arrives. -/
def demoS1 : Session := onOutput demoChunk ProcStream.stdout demoS0

/-- The scenario session after the confirmation `"y"` is submitted. -/
def demoS2 : Session := sendMessage (some ['y']) demoS1

/-- C7: in the round-trip scenario — session started, stdout chunk ending
with the sentinel, confirmation `"y"` submitted — the mode is `Confirmation`
after the chunk, the process input stream receives exactly `"y"` followed by
a newline, and the mode is `FreeText` after the submission. -/
theorem c7_round_trip :
    demoS1.mode = Mode.Confirmation ∧
    demoS2.stdinWrites = demoS1.stdinWrites ++ [['y', '\n']] ∧
    demoS2.mode = Mode.FreeText := by
  decide

/-- C8: a stderr chunk that does not contain the sentinel appends only
records flagged `isError = true`, leaves the mode `FreeText` (not
`Confirmation`), and neither closes the session nor signals the process —
stderr content is ordinary transcript data. -/
theorem c8_stderr_output (s : Session) (c : List Char) (h : ¬ sentinel <:+: c) :
    (onOutput c ProcStream.stderr s).transcript
      = s.transcript
        ++ (sliceTexts (errTag ++ c)).map (fun t => { text := t, isError := true }) ∧
    (onOutput c ProcStream.stderr s).mode = Mode.FreeText ∧
    (onOutput c ProcStream.stderr s).closed = s.closed ∧
    (onOutput c ProcStream.stderr s).killCount = s.killCount := by
  refine ⟨rfl, ?_, rfl, rfl⟩
  show classify (errTag ++ c) = Mode.FreeText
  exact classify_stderr h

/-- C8 witness: the concrete stderr chunk `"traceback..."`. -/
theorem c8_witness :
    (onOutput "traceback...".data ProcStream.stderr freshSession).transcript
      = freshSession.transcript
        ++ (sliceTexts (errTag ++ "traceback...".data)).map
          (fun t => { text := t, isError := true }) ∧
    (onOutput "traceback...".data ProcStream.stderr freshSession).mode = Mode.FreeText ∧
    (onOutput "traceback...".data ProcStream.stderr freshSession).closed
      = freshSession.closed ∧
    (onOutput "traceback...".data ProcStream.stderr freshSession).killCount
      = freshSession.killCount :=
  c8_stderr_output freshSession "traceback...".data (by decide)

/-- C9: invoking the confirmation-style submit path with the empty string as
override behaves exactly like a free-text submit — the JavaScript truthiness
test ignores the empty override, so the textarea content is sent and
cleared. -/
theorem c9_empty_override (s : Session) :
    sendMessage (some []) s = sendMessage none s := rfl

/-- C10 (amended): an empty chunk on stdout appends zero transcript records
(the regex match yields the empty slice list) and recomputes the mode to
`FreeText`; on stderr, however, the code passes the nonempty prefixed text
`"Error: "` to `appendOutput`, so one error record is appended. -/
theorem c10_empty_chunk (s : Session) :
    (onOutput [] ProcStream.stdout s).transcript = s.transcript ∧
    (onOutput [] ProcStream.stdout s).mode = Mode.FreeText := by
  constructor
  · show s.transcript ++ (sliceTexts []).map _ = s.transcript
    simp [sliceTexts, runs, runsGo]
  · show classify [] = Mode.FreeText
    decide

/-- C10 counterexample: `onOutput` with the empty chunk on stderr appends one
transcript record (with text `"Error: "`), not zero, because the stderr
listener prefixes before chunking. -/
theorem c10_counterexample :
    (onOutput [] ProcStream.stderr freshSession).transcript.length = 1 := by
  decide

end ObsidianOI
